import Mathlib

set_option maxRecDepth 100000

/-!
Verification of the rightmove_scraper extraction engine.

Shallow embedding of `src/rightmove_scraper.py`:
* `Json` models Python values produced by `json.loads`;
* `detect_room_type`, `extract_property_id`, `upgrade_image_resolution`,
  `parse_page_model`, `extract_images_from_page_model`,
  `extract_property_details` are direct translations of the functions of
  the same names;
* the two fetch tiers are modelled as pure functions taking the outcome
  of their network interaction (an `Except` value) as a parameter, so
  that control flow around validation and fallback can be proved.

Strings are handled as `List Char` at the algorithmic core; Python's
`str.lower` maps to `Char.toLower` (all inputs of interest are ASCII).
-/

/-- JSON values as produced by Python's `json.loads`.  Objects keep their
key/value pairs in source order; lookups return the last binding, matching
Python's dict semantics where a duplicate key overwrites.  Numbers cover
the integer literals that occur in the data of interest. -/
inductive Json where
  | null : Json
  | bool (b : Bool) : Json
  | num (n : Int) : Json
  | str (s : String) : Json
  | arr (xs : List Json) : Json
  | obj (kvs : List (String × Json)) : Json

/-- Python truthiness on JSON values: `None`, `False`, `0`, `""`, `[]`,
and the empty dict are falsy. -/
def truthy : Json → Bool
  | .null => false
  | .bool b => b
  | .num n => n != 0
  | .str s => s != ""
  | .arr xs => !xs.isEmpty
  | .obj kvs => !kvs.isEmpty

/-- Python's `a or b`: the first operand if truthy, else the second. -/
def pyOr (a b : Json) : Json := if truthy a then a else b

/-- Last binding of a key in an assoc list (Python dict: later keys win). -/
def lookupLast (kvs : List (String × Json)) (k : String) : Option Json :=
  kvs.foldl (fun acc p => if p.1 == k then some p.2 else acc) none

/-- Python `d.get(k)` (default `None` is represented by `Option`).
Total model: non-dict receivers yield `none`. -/
def jget (j : Json) (k : String) : Option Json :=
  match j with
  | .obj kvs => lookupLast kvs k
  | _ => none

/-- Python `d.get(k, default)`. -/
def jgetD (j : Json) (k : String) (d : Json) : Json := (jget j k).getD d

/-- Coerce a JSON value to a list (a non-list, which Python code would
iterate or crash on, is treated as empty; the claims' inputs are lists). -/
def jarr : Json → List Json
  | .arr xs => xs
  | _ => []

/-- Coerce a JSON value to a string (Python code would raise on a
non-string where this is used; inputs of interest are strings). -/
def asStr : Json → String
  | .str s => s
  | _ => ""

/-- Prefix test (Python `startswith`), recursing on the pattern first so
that it reduces definitionally even when the subject has an abstract
tail. -/
def isPre : List Char → List Char → Bool
  | [], _ => true
  | _ :: _, [] => false
  | p :: ps, c :: cs => p == c && isPre ps cs

/-- Substring test, Python's `needle in haystack` on character lists. -/
def containsSub (hay needle : List Char) : Bool :=
  match hay with
  | [] => needle.isEmpty
  | _ :: t => isPre needle hay || containsSub t needle

/-- Substring test on strings. -/
def strContains (s sub : String) : Bool := containsSub s.toList sub.toList

/-- Python `str.lower` (per-character, ASCII-faithful). -/
def lowerStr (s : String) : List Char := s.toList.map Char.toLower

/-- The `ROOM_KEYWORDS` table, in source (insertion) order. -/
def ROOM_KEYWORDS : List (String × List String) :=
  [ ("Kitchen", ["kitchen", "cooking", "culinary", "breakfast"]),
    ("Living Room", ["living", "lounge", "sitting", "reception", "drawing"]),
    ("Bedroom", ["bedroom", "bed room", "master bed", "guest bed", "sleep"]),
    ("Bathroom", ["bathroom", "bath room", "shower", "wc", "toilet", "en-suite", "ensuite"]),
    ("Garden", ["garden", "outdoor", "patio", "terrace", "yard", "lawn"]),
    ("Exterior", ["exterior", "front", "outside", "facade", "entrance"]),
    ("Dining Room", ["dining", "dinner", "eating"]),
    ("Study", ["study", "office", "home office", "work"]),
    ("Hallway", ["hall", "hallway", "entrance hall", "corridor"]),
    ("Utility", ["utility", "laundry", "boot room"]),
    ("Conservatory", ["conservatory", "sun room", "sunroom"]),
    ("Garage", ["garage", "parking", "car port"]),
    ("Basement", ["basement", "cellar"]),
    ("Attic", ["attic", "loft"]) ]

/-- The positional fallback of `detect_room_type` (its lines after the
keyword matching): first photo is "Exterior", large galleries use
positional buckets, otherwise a "Photo n" placeholder. -/
def roomTypeDefault (index total_images : Nat) : String :=
  if index = 0 then "Exterior"
  else if 10 ≤ total_images then
    if index ≤ 2 then "Reception Room"
    else if index ≤ 4 then "Kitchen / Dining"
    else if index ≤ 7 then "Bedroom"
    else if index ≤ 9 then "Bathroom"
    else "Garden / Other"
  else "Photo " ++ toString (index + 1)

/-- `detect_room_type(caption, index, total_images)`: keyword match on a
descriptive caption, else the positional default. -/
def detect_room_type (caption : String) (index : Nat) (total_images : Nat) : String :=
  let caption_lower := lowerStr caption
  let is_filename :=
    isPre "_dsc".toList caption_lower ||
    isPre "img_".toList caption_lower ||
    isPre "dsc_".toList caption_lower ||
    isPre "photo".toList caption_lower ||
    ".jpg".toList.isSuffixOf caption_lower ||
    ".jpeg".toList.isSuffixOf caption_lower ||
    ".png".toList.isSuffixOf caption_lower ||
    decide (caption.length < 4) ||
    (caption_lower == "font".toList)
  match (if is_filename then none
         else ROOM_KEYWORDS.find? (fun p => p.2.any (fun kw => containsSub caption_lower kw.toList))) with
  | some p => p.1
  | none => roomTypeDefault index total_images

/-- Separator-then-digits part of the first regex of `extract_property_id`:
matches a slash-or-hyphen separator followed by `(\d+)` at the head of the list and returns the captured
digit run (maximal, as for a greedy `\d+`). -/
def sepDigits : List Char → Option (List Char)
  | [] => none
  | c :: rest =>
    if c == '/' || c == '-' then
      if (rest.takeWhile Char.isDigit).isEmpty then none
      else some (rest.takeWhile Char.isDigit)
    else none

/-- The `(?:y|ies)` then separator then `(\d+)` part: regex alternation tries `y` first,
then `ies`. -/
def afterPropert (rest : List Char) : Option (List Char) :=
  Option.orElse (if isPre "y".toList rest then sepDigits (rest.drop 1) else none)
    (fun _ => if isPre "ies".toList rest then sepDigits (rest.drop 3) else none)

/-- One attempted match of the path pattern (`propert`, `y` or `ies`,
separator, digits) at the head of the list. -/
def matchPropAt (cs : List Char) : Option (List Char) :=
  if isPre "/propert".toList cs then afterPropert (cs.drop 8) else none

/-- `re.search` of the first pattern of `extract_property_id`: try a
match at every position, left to right. -/
def searchPropId : List Char → Option (List Char)
  | [] => none
  | c :: rest => Option.orElse (matchPropAt (c :: rest)) (fun _ => searchPropId rest)

/-- One attempted match of `propertyId=(\d+)` at the head of the list. -/
def matchQueryIdAt (cs : List Char) : Option (List Char) :=
  if isPre "propertyId=".toList cs then
    (fun ds => if ds.isEmpty then none else some ds) ((cs.drop 11).takeWhile Char.isDigit)
  else none

/-- `re.search` of the second pattern of `extract_property_id`. -/
def searchQueryId : List Char → Option (List Char)
  | [] => none
  | c :: rest => Option.orElse (matchQueryIdAt (c :: rest)) (fun _ => searchQueryId rest)

/-- `extract_property_id(url)` on character lists: first the path
pattern, then the query pattern, else the empty string. -/
def extract_property_id_chars (url : List Char) : List Char :=
  match searchPropId url with
  | some ds => ds
  | none =>
    match searchQueryId url with
    | some ds => ds
    | none => []

/-- `extract_property_id(url)`. -/
def extract_property_id (url : String) : String :=
  ⟨extract_property_id_chars url.toList⟩

/-- One attempted match of `/crop/\d+x\d+/` at the head of the list;
returns the remainder after the match. -/
def cropMatch (cs : List Char) : Option (List Char) :=
  if isPre "/crop/".toList cs then
    let r1 := cs.drop 6
    if (r1.takeWhile Char.isDigit).isEmpty then none
    else
      match r1.dropWhile Char.isDigit with
      | 'x' :: r2 =>
        if (r2.takeWhile Char.isDigit).isEmpty then none
        else
          match r2.dropWhile Char.isDigit with
          | '/' :: r3 => some r3
          | _ => none
      | _ => none
  else none

/-- One attempted match of `/_max_\d+x\d+/` at the head of the list;
returns the remainder after the whole match (trailing `/` included). -/
def maxMatch (cs : List Char) : Option (List Char) :=
  if isPre "/_max_".toList cs then
    let r1 := cs.drop 6
    if (r1.takeWhile Char.isDigit).isEmpty then none
    else
      match r1.dropWhile Char.isDigit with
      | 'x' :: r2 =>
        if (r2.takeWhile Char.isDigit).isEmpty then none
        else
          match r2.dropWhile Char.isDigit with
          | '/' :: r3 => some r3
          | _ => none
      | _ => none
  else none

/-- `re.sub(pat, '/', s)` driver: leftmost non-overlapping matches; at a
match the replacement `/` is emitted and the scan resumes after the end
of the match, without rescanning the replacement.  Fuel (`length + 1`)
keeps the recursion structural. -/
def subGo (matcher : List Char → Option (List Char)) : Nat → List Char → List Char
  | 0, cs => cs
  | _ + 1, [] => []
  | fuel + 1, c :: rest =>
    match matcher (c :: rest) with
    | some r => '/' :: subGo matcher fuel r
    | none => c :: subGo matcher fuel rest

/-- Does `re.search` find a match of the pattern anywhere? -/
def hasMatch (matcher : List Char → Option (List Char)) : List Char → Bool
  | [] => false
  | c :: rest => (matcher (c :: rest)).isSome || hasMatch matcher rest

/-- `upgrade_image_resolution(url)`: strip `/crop/\d+x\d+/` segments,
then `/_max_\d+x\d+/` segments. -/
def upgrade_image_resolution (url : String) : String :=
  let l1 := subGo cropMatch (url.toList.length + 1) url.toList
  ⟨subGo maxMatch (l1.length + 1) l1⟩

/-- Python `html.find(marker)` followed by slicing from the marker's end:
returns the suffix after the first occurrence of `pat`, or `none`. -/
def afterSub (pat : List Char) : List Char → Option (List Char)
  | [] => if pat.isEmpty then some [] else none
  | c :: rest =>
    if isPre pat (c :: rest) then some ((c :: rest).drop pat.length)
    else afterSub pat rest

/-- The marker preceding the embedded JSON object. -/
def markerChars : List Char := "window.PAGE_MODEL = ".toList

/-- The brace-counting loop of `parse_page_model`, transcribed per
character: `esc` is `escape_next` (the character after a backslash is
consumed with no other effect), `inStr` the inside-string flag toggled
on unescaped quotes, `depth` the brace counter (quotes are examined
before the inside-string skip, and braces only count outside strings).
On the closing brace that returns the depth to zero the consumed prefix
(the slice `html[json_start:json_end]`) is returned.  If the input ends
with a nonzero counter the result is `none` (Python returns `None`); if
it ends with a zero counter that never returned to zero from a positive
value the returned slice is empty (Python leaves `json_end` at
`json_start`), which then fails JSON parsing. -/
def scanGo : List Char → Int → Bool → Bool → List Char → Option (List Char)
  | [], depth, _, _, _ => if depth != 0 then none else some []
  | c :: rest, depth, inStr, esc, acc =>
    if esc then scanGo rest depth inStr false (c :: acc)
    else if c == '\\' then scanGo rest depth inStr true (c :: acc)
    else if c == '"' then scanGo rest depth (!inStr) false (c :: acc)
    else if inStr then scanGo rest depth inStr false (c :: acc)
    else if c == '{' then scanGo rest (depth + 1) inStr false (c :: acc)
    else if c == '}' then
      (if depth - 1 == 0 then some (c :: acc).reverse
       else scanGo rest (depth - 1) inStr false (c :: acc))
    else scanGo rest depth inStr false (c :: acc)

/-- The brace-counting extraction of `parse_page_model`, starting just
after the marker. -/
def scanJson (cs : List Char) : Option (List Char) := scanGo cs 0 false false []

/-- Decimal value of a digit run. -/
def natOfDigits (ds : List Char) : Nat :=
  ds.foldl (fun n c => n * 10 + (c.toNat - '0'.toNat)) 0

/-- JSON whitespace as accepted by `json.loads`. -/
def jsonWs (c : Char) : Bool := c == ' ' || c == '\t' || c == '\n' || c == '\r'

/-- One string escape after a backslash; `\uXXXX` maps through
`Char.ofNat` (surrogate pairs, absent from the inputs of interest, are
not combined). -/
def parseEscape : List Char → Option (Char × List Char)
  | '"' :: r => some ('"', r)
  | '\\' :: r => some ('\\', r)
  | '/' :: r => some ('/', r)
  | 'b' :: r => some ('\x08', r)
  | 'f' :: r => some ('\x0c', r)
  | 'n' :: r => some ('\n', r)
  | 'r' :: r => some ('\r', r)
  | 't' :: r => some ('\t', r)
  | 'u' :: a :: b :: c :: d :: r =>
    let hv : Char → Option Nat := fun ch =>
      if ch.isDigit then some (ch.toNat - '0'.toNat)
      else if 'a' ≤ ch ∧ ch ≤ 'f' then some (ch.toNat - 'a'.toNat + 10)
      else if 'A' ≤ ch ∧ ch ≤ 'F' then some (ch.toNat - 'A'.toNat + 10)
      else none
    match hv a, hv b, hv c, hv d with
    | some x, some y, some z, some w => some (Char.ofNat (((x * 16 + y) * 16 + z) * 16 + w), r)
    | _, _, _, _ => none
  | _ => none

mutual

/-- Recursive-descent JSON value parser modelling `json.loads` (fuel
keeps the recursion structural so that proofs can evaluate it; floats
and exponents, absent from the inputs of interest, are rejected). -/
def parseVal : Nat → List Char → Option (Json × List Char)
  | 0, _ => none
  | fuel + 1, cs =>
    match cs.dropWhile jsonWs with
    | '"' :: r =>
      match parseStrBody fuel r with
      | some (s, rest) => some (.str ⟨s⟩, rest)
      | none => none
    | '{' :: r =>
      (match (r.dropWhile jsonWs) with
       | '}' :: r2 => some (.obj [], r2)
       | cs2 =>
         match parseObjMembers fuel cs2 with
         | some (kvs, rest) => some (.obj kvs, rest)
         | none => none)
    | '[' :: r =>
      (match (r.dropWhile jsonWs) with
       | ']' :: r2 => some (.arr [], r2)
       | cs2 =>
         match parseArrMembers fuel cs2 with
         | some (xs, rest) => some (.arr xs, rest)
         | none => none)
    | 't' :: 'r' :: 'u' :: 'e' :: r => some (.bool true, r)
    | 'f' :: 'a' :: 'l' :: 's' :: 'e' :: r => some (.bool false, r)
    | 'n' :: 'u' :: 'l' :: 'l' :: r => some (.null, r)
    | '-' :: r =>
      let ds := r.takeWhile Char.isDigit
      if ds.isEmpty then none
      else
        (match r.dropWhile Char.isDigit with
         | '.' :: _ => none
         | 'e' :: _ => none
         | 'E' :: _ => none
         | rest => some (.num (-(natOfDigits ds : Int)), rest))
    | c :: r =>
      if c.isDigit then
        let ds := (c :: r).takeWhile Char.isDigit
        (match (c :: r).dropWhile Char.isDigit with
         | '.' :: _ => none
         | 'e' :: _ => none
         | 'E' :: _ => none
         | rest => some (.num (natOfDigits ds : Int), rest))
      else none
    | [] => none

/-- String body after the opening quote; returns content and remainder
after the closing quote. -/
def parseStrBody : Nat → List Char → Option (List Char × List Char)
  | 0, _ => none
  | fuel + 1, cs =>
    match cs with
    | [] => none
    | '"' :: r => some ([], r)
    | '\\' :: r =>
      (match parseEscape r with
       | some (c, r2) =>
         match parseStrBody fuel r2 with
         | some (s, rest) => some (c :: s, rest)
         | none => none
       | none => none)
    | c :: r =>
      match parseStrBody fuel r with
      | some (s, rest) => some (c :: s, rest)
      | none => none

/-- Nonempty member list of a JSON object (input begins at the first
key, whitespace already skipped). -/
def parseObjMembers : Nat → List Char → Option (List (String × Json) × List Char)
  | 0, _ => none
  | fuel + 1, cs =>
    match cs with
    | '"' :: r =>
      (match parseStrBody fuel r with
       | some (k, r1) =>
         (match r1.dropWhile jsonWs with
          | ':' :: r2 =>
            (match parseVal fuel r2 with
             | some (v, r3) =>
               (match r3.dropWhile jsonWs with
                | '}' :: r4 => some ([(⟨k⟩, v)], r4)
                | ',' :: r4 =>
                  (match parseObjMembers fuel (r4.dropWhile jsonWs) with
                   | some (kvs, r5) => some ((⟨k⟩, v) :: kvs, r5)
                   | none => none)
                | _ => none)
             | none => none)
          | _ => none)
       | none => none)
    | _ => none

/-- Nonempty element list of a JSON array (input begins at the first
element). -/
def parseArrMembers : Nat → List Char → Option (List Json × List Char)
  | 0, _ => none
  | fuel + 1, cs =>
    match parseVal fuel cs with
    | some (v, r1) =>
      (match r1.dropWhile jsonWs with
       | ']' :: r2 => some ([v], r2)
       | ',' :: r2 =>
         (match parseArrMembers fuel r2 with
          | some (xs, r3) => some (v :: xs, r3)
          | none => none)
       | _ => none)
    | none => none

end

/-- `json.loads(s)`: parse one value and require only whitespace to
remain, else the parse fails. -/
def jsonParse (cs : List Char) : Option Json :=
  match parseVal (cs.length + 1) cs with
  | some (v, rest) => if (rest.dropWhile jsonWs).isEmpty then some v else none
  | none => none

/-- `parse_page_model(html)`: locate the marker, brace-scan the object,
parse it as JSON; all failures yield `none`. -/
def parse_page_model (html : List Char) : Option Json :=
  match afterSub markerChars html with
  | none => none
  | some rest =>
    match scanJson rest with
    | none => none
    | some js => jsonParse js

/-- `PropertyImage` dataclass.  `width`/`height` hold the raw JSON values
(`Json.null` models Python's `None`). -/
structure PropertyImage where
  id : Nat
  url : String
  url_high_res : String
  room_type : String
  caption : String
  width : Json := .null
  height : Json := .null

/-- The `(url, caption, width, height)` selection of one entry of the
loop of `extract_images_from_page_model`: dict entries read their
fields with Python `or`-chains, string entries are bare URLs, anything
else is skipped (`none`). -/
def imageEntryFields (img : Json) : Option (Json × Json × Json × Json) :=
  match img with
  | .obj _ =>
    some (pyOr (jgetD img "url" .null) (pyOr (jgetD img "srcUrl" .null) (jgetD img "src" (.str ""))),
          pyOr (jgetD img "caption" (.str "")) (jgetD img "alt" (.str "")),
          jgetD img "width" .null, jgetD img "height" .null)
  | .str s => some (.str s, .str "", .null, .null)
  | _ => none

/-- Is an entry of the `images` array kept by the loop (well-shaped and
with a truthy URL)? -/
def keptEntry (img : Json) : Bool :=
  match imageEntryFields img with
  | some f => truthy f.1
  | none => false

/-- The `for idx, img in enumerate(image_list)` loop of
`extract_images_from_page_model`; `idx` is the enumeration index over
the source list (skipped entries advance it) and the built image gets
`id = idx + 1`. -/
def extract_images_go (total : Nat) (idx : Nat) : List Json → List PropertyImage
  | [] => []
  | img :: rest =>
    match imageEntryFields img with
    | none => extract_images_go total (idx + 1) rest
    | some (urlJ, captionJ, wJ, hJ) =>
      if truthy urlJ then
        let url0 := asStr urlJ
        let caption := asStr captionJ
        let url :=
          if isPre "//".toList url0.toList then "https:" ++ url0
          else if isPre "/".toList url0.toList then "https://media.rightmove.co.uk" ++ url0
          else url0
        { id := idx + 1, url := url, url_high_res := upgrade_image_resolution url,
          room_type := detect_room_type caption idx total, caption := caption,
          width := wJ, height := hJ } :: extract_images_go total (idx + 1) rest
      else extract_images_go total (idx + 1) rest

/-- The `image_list` computed by `extract_images_from_page_model`:
`data.get('propertyData', data).get('images', [])`. -/
def imageListOf (data : Json) : List Json :=
  jarr (jgetD (jgetD data "propertyData" data) "images" (.arr []))

/-- `extract_images_from_page_model(data)`. -/
def extract_images_from_page_model (data : Json) : List PropertyImage :=
  extract_images_go (imageListOf data).length 0 (imageListOf data)

/-- The `details` dict of `extract_property_details`, with its initial
values as field defaults.  Fields hold raw JSON values because the
Python code stores whatever the payload supplies. -/
structure Details where
  address : Json := .str ""
  price : Json := .str ""
  price_qualifier : Json := .str ""
  property_type : Json := .str ""
  bedrooms : Json := .num 0
  bathrooms : Json := .num 0
  agent_name : Json := .str ""
  agent_phone : Json := .str ""
  description : Json := .str ""
  features : Json := .arr []
  floorplan_urls : List Json := []

/-- `extract_property_details(data, page_content)` (the second argument
is unused by the source as well). -/
def extract_property_details (data : Json) (_page_content : String) : Details :=
  if truthy data = false then {}
  else
    let prop := jgetD data "propertyData" data
    let addr := jgetD prop "address" (.obj [])
    let address :=
      match addr with
      | .obj _ => jgetD addr "displayAddress" (.str "")
      | .str s => .str s
      | _ => .str ""
    let prices := jgetD prop "prices" (.obj [])
    let price :=
      match prices with
      | .obj _ => jgetD prices "primaryPrice" (.str "")
      | _ => .str ""
    let price_qualifier :=
      match prices with
      | .obj _ => jgetD prices "priceQualifier" (.str "")
      | _ => .str ""
    let agent := pyOr (jgetD prop "customer" (.obj [])) (jgetD prop "agent" (.obj []))
    let agent_name :=
      match agent with
      | .obj _ => pyOr (jgetD agent "branchDisplayName" (.str "")) (jgetD agent "name" (.str ""))
      | _ => .str ""
    let agent_phone :=
      match agent with
      | .obj _ => pyOr (jgetD agent "contactTelephone" (.str "")) (jgetD agent "phone" (.str ""))
      | _ => .str ""
    let description :=
      match jget prop "text" with
      | some (.obj kvs) => jgetD (.obj kvs) "description" (.str "")
      | _ => .str ""
    let floorplans := jarr (jgetD prop "floorplans" (.arr []))
    { address := address, price := price, price_qualifier := price_qualifier,
      property_type := pyOr (jgetD prop "propertySubType" (.str "")) (jgetD prop "propertyType" (.str "")),
      bedrooms := pyOr (jgetD prop "bedrooms" (.num 0)) (.num 0),
      bathrooms := pyOr (jgetD prop "bathrooms" (.num 0)) (.num 0),
      agent_name := agent_name, agent_phone := agent_phone,
      description := description,
      features := pyOr (jgetD prop "keyFeatures" (.arr [])) (.arr []),
      floorplan_urls := floorplans.filterMap (fun fp =>
        match fp with
        | .obj _ => if truthy (jgetD fp "url" .null) then some (jgetD fp "url" (.str "")) else none
        | _ => none) }

/-- `PropertyListing` dataclass (metadata fields hold raw JSON values,
as extracted). -/
structure PropertyListing where
  url : String
  property_id : String
  address : Json
  price : Json
  price_qualifier : Json
  property_type : Json
  bedrooms : Json
  bathrooms : Json
  images : List PropertyImage
  floorplan_urls : List Json
  agent_name : Json
  agent_phone : Json
  description : Json
  features : Json

/-- Assemble a `PropertyListing` from url, id, images and details — the
common constructor call of both fetch tiers. -/
def mkListing (url : String) (pid : String) (images : List PropertyImage) (d : Details) : PropertyListing :=
  { url := url, property_id := pid, address := d.address, price := d.price,
    price_qualifier := d.price_qualifier, property_type := d.property_type,
    bedrooms := d.bedrooms, bathrooms := d.bathrooms, images := images,
    floorplan_urls := d.floorplan_urls, agent_name := d.agent_name,
    agent_phone := d.agent_phone, description := d.description, features := d.features }

/-- The `skip_patterns` list of the Playwright DOM fallback, verbatim
(the uppercase entry is compared against a lowercased URL exactly as in
the source). -/
def skipPatterns : List String :=
  ["branch_logo", "BRANCH_PROFILE", "_generate", "/map/", "/assets/", "logo", "icon", "placeholder"]

/-- The DOM-fallback loop of `_scrape_with_playwright` over the queried
`img` elements, one `(src attribute, alt attribute)` pair per element.
`idx` is the element enumeration index (used for room detection),
`total` is `len(image_elements)`, `seen` the deduplication set and `n`
the running `len(images)` (ids are `len(images) + 1`). -/
def domGo (total : Nat) (idx : Nat) (seen : List String) (n : Nat) :
    List (Option String × String) → List PropertyImage
  | [] => []
  | (src?, alt) :: rest =>
    match src? with
    | none => domGo total (idx + 1) seen n rest
    | some src =>
      let clean_url : String := ⟨src.toList.takeWhile (fun c => !(c == '?'))⟩
      if skipPatterns.any (fun p => containsSub (lowerStr clean_url) p.toList) then
        domGo total (idx + 1) seen n rest
      else if seen.contains clean_url then domGo total (idx + 1) seen n rest
      else
        let seen2 := clean_url :: seen
        if strContains clean_url "_max_135x" || strContains clean_url "_max_100x" then
          domGo total (idx + 1) seen2 n rest
        else if !(strContains clean_url "_IMG_" || strContains clean_url "_FLP_") then
          domGo total (idx + 1) seen2 n rest
        else
          { id := n + 1, url := clean_url,
            url_high_res := upgrade_image_resolution clean_url,
            room_type := detect_room_type alt idx total, caption := alt } ::
          domGo total (idx + 1) seen2 (n + 1) rest

/-- The whole DOM fallback extraction of `_scrape_with_playwright`. -/
def domExtract (elems : List (Option String × String)) : List PropertyImage :=
  domGo elems.length 0 [] 0 elems

/-- Modelled from the Python stdlib: `urlparse(url).netloc` for URLs of
the usual `scheme://host/...` shape — the text between the first `://`
(or a leading `//`) and the next `/`, `?` or `#`; empty when the URL has
no network-location part. -/
def netloc (url : String) : String :=
  match afterSub "://".toList url.toList with
  | some rest => ⟨rest.takeWhile (fun c => !(c == '/' || c == '?' || c == '#'))⟩
  | none =>
    if isPre "//".toList url.toList then
      ⟨(url.toList.drop 2).takeWhile (fun c => !(c == '/' || c == '?' || c == '#'))⟩
    else ""

/-- `scrape_with_httpx_fallback(url)`: validate the host substring and
the property id, then run the GET (its outcome is the `fetched`
parameter — validation errors occur before any fetch), then build the
listing from the embedded JSON when `page_model` is truthy and with an
empty image list otherwise. -/
def scrape_with_httpx_fallback (url : String) (fetched : Except String String) :
    Except String PropertyListing :=
  if !(strContains (netloc url) "rightmove.co.uk") then
    .error ("Not a Rightmove URL: " ++ url)
  else
    let pid := extract_property_id url
    if pid = "" then .error ("Could not extract property ID from URL: " ++ url)
    else
      match fetched with
      | .error e => .error e
      | .ok html =>
        let pmJ := (parse_page_model html.toList).getD .null
        if truthy pmJ then
          .ok (mkListing url pid (extract_images_from_page_model pmJ)
                (extract_property_details pmJ html))
        else
          .ok (mkListing url pid [] (extract_property_details (.obj []) html))

/-- `_scrape_with_playwright(url)`: same validation prelude, then the
rendered session (browser launch, navigation and element query are the
`session` parameter: rendered HTML plus the `(src, alt)` attributes of
the queried gallery elements).  Images come from the embedded JSON when
it parses to a truthy value, else from the DOM fallback; details from
`page_model or {}`. -/
def scrape_with_playwright (url : String)
    (session : Except String (String × List (Option String × String))) :
    Except String PropertyListing :=
  if !(strContains (netloc url) "rightmove.co.uk") then
    .error ("Not a Rightmove URL: " ++ url)
  else
    let pid := extract_property_id url
    if pid = "" then .error ("Could not extract property ID from URL: " ++ url)
    else
      match session with
      | .error e => .error e
      | .ok (html, elems) =>
        let pmJ := (parse_page_model html.toList).getD .null
        let images := if truthy pmJ then extract_images_from_page_model pmJ else domExtract elems
        .ok (mkListing url pid images (extract_property_details (pyOr pmJ (.obj [])) html))

/-- `scrape_rightmove_listing(url)`: httpx tier when Playwright is
unavailable; otherwise try the Playwright tier and on any exception
fall through to the httpx tier (the except clause swallows the browser
error). -/
def scrape_rightmove_listing (pwAvailable : Bool)
    (pwSession : Except String (String × List (Option String × String)))
    (url : String) (httpxFetched : Except String String) : Except String PropertyListing :=
  if !pwAvailable then scrape_with_httpx_fallback url httpxFetched
  else
    match scrape_with_playwright url pwSession with
    | .ok l => .ok l
    | .error _ => scrape_with_httpx_fallback url httpxFetched

/-- The end-to-end HTML of the spec's JSON-path scenario. -/
def htmlC1 : String :=
  "<html><script>window.PAGE_MODEL = \x7b\"propertyData\":\x7b\"address\":\x7b\"displayAddress\":\"1 Example Rd\"\x7d,\"prices\":\x7b\"primaryPrice\":\"£500,000\"\x7d,\"images\":[\x7b\"url\":\"https://media.example.com/a/_max_135x100/1.jpg\",\"caption\":\"Kitchen\"\x7d]\x7d\x7d;</script></html>"

/-- The parsed `PAGE_MODEL` of `htmlC1`. -/
def pmC1 : Json :=
  .obj [("propertyData", .obj
    [("address", .obj [("displayAddress", .str "1 Example Rd")]),
     ("prices", .obj [("primaryPrice", .str "£500,000")]),
     ("images", .arr [.obj
       [("url", .str "https://media.example.com/a/_max_135x100/1.jpg"),
        ("caption", .str "Kitchen")]])])]

/-- The single image extracted from `pmC1`. -/
def imgC1 : PropertyImage :=
  { id := 1, url := "https://media.example.com/a/_max_135x100/1.jpg",
    url_high_res := "https://media.example.com/a/1.jpg",
    room_type := "Kitchen", caption := "Kitchen" }

/-- A JSON payload whose string value contains an escaped quote and
unescaped braces. -/
def payloadC2 : String := "\x7b\"caption\": \"Room \\\"\x7bA\x7d\\\" ok\", \"n\": 1\x7d"

/-- Trailing page text after the payload (with further braces). -/
def tailC2 : String := ";window.other = \x7bfoo: 1\x7d;</script>"

/-- A page embedding `payloadC2`. -/
def htmlC2 : String := "<script>window.PAGE_MODEL = " ++ payloadC2 ++ tailC2

/-- The parsed value of `payloadC2`. -/
def pmC2 : Json := .obj [("caption", .str "Room \"\x7bA\x7d\" ok"), ("n", .num 1)]

/-- A page whose `images` array has a skipped entry (a JSON `null`)
before a kept bare-URL entry. -/
def htmlC3 : String :=
  "window.PAGE_MODEL = \x7b\"images\": [null, \"https://media.example.com/p/_IMG_1.jpg\"]\x7d"

/-- The parsed `PAGE_MODEL` of `htmlC3`. -/
def pmC3 : Json :=
  .obj [("images", .arr [.null, .str "https://media.example.com/p/_IMG_1.jpg"])]

/-- Static HTML without the `PAGE_MODEL` marker but with a media-host
property image URL. -/
def htmlC4 : String := "<img src=\"https://media.rightmove.co.uk/x/_IMG_01.jpg\"/>"

/-- A valid listing URL used to drive the tier models. -/
def urlRM1 : String := "https://www.rightmove.co.uk/properties/1"

/-- The listing the httpx tier produces for `urlRM1` when the fetched
page has no embedded JSON: identifier extracted, empty images, default
details. -/
def listingRM1 : PropertyListing := mkListing urlRM1 "1" [] {}

/-- A URL whose host is not `rightmove.co.uk` but contains it as a
substring. -/
def urlEvil : String := "https://rightmove.co.uk.evil.com/properties/123"

/-- The listing both tiers happily produce for `urlEvil`. -/
def listingEvil : PropertyListing := mkListing urlEvil "123" [] {}

theorem afterSub_marker_append (rest : List Char) :
    afterSub markerChars (markerChars ++ rest) = some rest := rfl

theorem parse_page_model_scan_none (rest : List Char) (h : scanJson rest = none) :
    parse_page_model (markerChars ++ rest) = none := by
  simp only [parse_page_model, afterSub_marker_append, h]

theorem parse_page_model_no_marker (html : List Char)
    (h : afterSub markerChars html = none) : parse_page_model html = none := by
  simp only [parse_page_model, h]

/-- C1: for the HTML embedding the spec's example `window.PAGE_MODEL`
assignment, the JSON path (`parse_page_model`, then
`extract_images_from_page_model` and `extract_property_details`, as
assembled by the httpx tier) yields address "1 Example Rd", price
"£500,000", and exactly one image whose room type is "Kitchen" and whose
high-resolution URL no longer contains the `_max_135x100` segment. -/
theorem assembler_json_path_end_to_end :
    parse_page_model htmlC1.toList = some pmC1 ∧
    (extract_property_details pmC1 htmlC1).address = Json.str "1 Example Rd" ∧
    (extract_property_details pmC1 htmlC1).price = Json.str "£500,000" ∧
    extract_images_from_page_model pmC1 = [imgC1] ∧
    imgC1.room_type = "Kitchen" ∧
    strContains imgC1.url_high_res "_max_135x100" = false ∧
    scrape_with_httpx_fallback urlRM1 (Except.ok htmlC1) =
      Except.ok (mkListing urlRM1 "1" [imgC1] (extract_property_details pmC1 htmlC1)) :=
  ⟨rfl, rfl, rfl, rfl, rfl, rfl, rfl⟩

/-- C2: the brace counter of `parse_page_model` ends the object exactly
where the depth returns to zero outside string literals — a payload with
an escaped quote and `\x7bA\x7d` inside a string value is scanned to its true
closing brace and parses (no early termination), and whenever the scan
ends with a nonzero counter the function returns `none`. -/
theorem parse_page_model_brace_counting :
    parse_page_model htmlC2.toList = some pmC2 ∧
    scanJson (payloadC2 ++ tailC2).toList = some payloadC2.toList ∧
    (∀ rest : List Char, scanJson rest = none →
      parse_page_model (markerChars ++ rest) = none) :=
  ⟨rfl, rfl, fun rest h => parse_page_model_scan_none rest h⟩

theorem parse_page_model_brace_counting_witness :
    parse_page_model (markerChars ++ "\x7b[1, 2".toList) = none :=
  parse_page_model_brace_counting.2.2 "\x7b[1, 2".toList rfl

/-- C6: the four example classifications of the spec — a descriptive
caption matches its keyword, a filename caption falls back to
"Exterior" at index 0 and to the positional bucket "Bathroom" at index
8 of 12, and an empty caption in a small gallery gets a "Photo n"
placeholder. -/
theorem detect_room_type_examples :
    detect_room_type "Lovely bright kitchen" 5 12 = "Kitchen" ∧
    detect_room_type "_DSC4821.jpg" 0 12 = "Exterior" ∧
    detect_room_type "_DSC4821.jpg" 8 12 = "Bathroom" ∧
    detect_room_type "" 11 3 = "Photo 12" :=
  ⟨rfl, rfl, rfl, rfl⟩

/-- C10: a caption whose lowercase form starts with "photo" or whose
length is under 4 is treated as a filename, so keyword matching is
skipped and the result is the positional default — "Exterior" at index
0, a positional bucket when the gallery has at least 10 images, and a
"Photo n" placeholder otherwise. -/
theorem nondescriptive_caption_defaults :
    (∀ (caption : String) (idx total : Nat),
       (isPre "photo".toList (lowerStr caption) = true ∨ caption.length < 4) →
       detect_room_type caption idx total = roomTypeDefault idx total) ∧
    (∀ total, roomTypeDefault 0 total = "Exterior") ∧
    (∀ idx total, idx ≠ 0 → 10 ≤ total →
       roomTypeDefault idx total ∈
         (["Reception Room", "Kitchen / Dining", "Bedroom", "Bathroom", "Garden / Other"] : List String)) ∧
    (∀ idx total, idx ≠ 0 → total < 10 →
       roomTypeDefault idx total = "Photo " ++ toString (idx + 1)) := by
  refine ⟨?_, ?_, ?_, ?_⟩
  · intro caption idx total h
    rcases h with h | h
    · have h2 : isPre ['p', 'h', 'o', 't', 'o'] (lowerStr caption) = true := h
      simp [detect_room_type, h2]
    · simp [detect_room_type, h]
  · intro total; simp [roomTypeDefault]
  · intro idx total h0 h10
    unfold roomTypeDefault
    rw [if_neg h0, if_pos h10]
    split_ifs <;> simp
  · intro idx total h0 hlt
    unfold roomTypeDefault
    rw [if_neg h0, if_neg (by omega : ¬ 10 ≤ total)]

theorem nondescriptive_caption_defaults_witness :
    detect_room_type "Photo of the kitchen" 0 12 = "Exterior" :=
  (nondescriptive_caption_defaults.1 "Photo of the kitchen" 0 12 (Or.inl rfl)).trans
    (nondescriptive_caption_defaults.2.1 12)

/-- C7: when the browser tier fails for any reason, the assembler falls
through to the httpx tier and returns its result — the browser error is
not propagated when the httpx tier succeeds, and an error surfaces only
when the httpx tier fails too. -/
theorem browser_failure_falls_through :
    ∀ (url e : String) (hf : Except String String),
      scrape_rightmove_listing true (Except.error e) url hf = scrape_with_httpx_fallback url hf ∧
      (∀ l, scrape_with_httpx_fallback url hf = Except.ok l →
        scrape_rightmove_listing true (Except.error e) url hf = Except.ok l) ∧
      (∀ e2, scrape_with_httpx_fallback url hf = Except.error e2 →
        scrape_rightmove_listing true (Except.error e) url hf = Except.error e2) := by
  intro url e hf
  have hpw : ∀ l, scrape_with_playwright url (Except.error e) ≠ Except.ok l := by
    intro l h
    simp only [scrape_with_playwright] at h
    split_ifs at h
  have hmain : scrape_rightmove_listing true (Except.error e) url hf =
      scrape_with_httpx_fallback url hf := by
    unfold scrape_rightmove_listing
    cases hs : scrape_with_playwright url (Except.error e) with
    | error e2 => simp [hs]
    | ok l => exact absurd hs (hpw l)
  exact ⟨hmain, fun l h => hmain.trans h, fun e2 h => hmain.trans h⟩

theorem browser_failure_falls_through_witness :
    scrape_rightmove_listing true (Except.error "Failed to launch browser") urlRM1 (Except.ok "x") =
      Except.ok listingRM1 :=
  (browser_failure_falls_through urlRM1 "Failed to launch browser" (Except.ok "x")).2.1
    listingRM1 rfl

/-- C8 counterexample: the URL `urlEvil` has host
`rightmove.co.uk.evil.com` — not the target domain and not a subdomain
of it — yet both tiers validate it (the check is a substring test) and
return a listing instead of failing with the invalid-URL error. -/
theorem host_validation_cex :
    netloc urlEvil = "rightmove.co.uk.evil.com" ∧
    netloc urlEvil ≠ "rightmove.co.uk" ∧
    ".rightmove.co.uk".toList.isSuffixOf (netloc urlEvil).toList = false ∧
    scrape_with_httpx_fallback urlEvil (Except.ok "x") = Except.ok listingEvil ∧
    scrape_with_playwright urlEvil (Except.ok ("x", [])) = Except.ok listingEvil :=
  ⟨rfl, by decide, rfl, rfl, rfl⟩

/-- C8 amended: whenever the URL's network location does not contain
"rightmove.co.uk" as a substring, both tiers fail with the
invalid-URL `ValueError` independently of the fetch outcome (that is,
before any fetch is attempted). -/
theorem host_validation_rejects (url : String)
    (h : strContains (netloc url) "rightmove.co.uk" = false) :
    (∀ sess, scrape_with_playwright url sess =
        Except.error ("Not a Rightmove URL: " ++ url)) ∧
    (∀ hf, scrape_with_httpx_fallback url hf =
        Except.error ("Not a Rightmove URL: " ++ url)) := by
  constructor
  · intro sess; simp [scrape_with_playwright, h]
  · intro hf; simp [scrape_with_httpx_fallback, h]

theorem host_validation_rejects_witness :
    scrape_with_playwright "https://example.com/a" (Except.ok ("x", [])) =
      Except.error ("Not a Rightmove URL: " ++ "https://example.com/a") ∧
    scrape_with_httpx_fallback "https://example.com/a" (Except.ok "x") =
      Except.error ("Not a Rightmove URL: " ++ "https://example.com/a") :=
  ⟨(host_validation_rejects "https://example.com/a" rfl).1 _,
   (host_validation_rejects "https://example.com/a" rfl).2 _⟩

/-- C4 counterexample: static HTML with a media-host image URL but
without the `PAGE_MODEL` marker makes the httpx tier return a listing
with an empty image list — there is no regex fallback in that tier. -/
theorem httpx_no_regex_fallback_cex :
    strContains htmlC4 "media.rightmove.co.uk" = true ∧
    afterSub markerChars htmlC4.toList = none ∧
    scrape_with_httpx_fallback urlRM1 (Except.ok htmlC4) = Except.ok listingRM1 ∧
    listingRM1.images = [] :=
  ⟨rfl, rfl, rfl, rfl⟩

/-- C4 amended: in the httpx tier, when the embedded-JSON marker is
absent from the fetched HTML there is no image extraction at all: a
validated URL yields a listing with an empty image list and default
details, whatever the page contains. -/
theorem httpx_marker_absent_empty_images (url html : String)
    (h1 : strContains (netloc url) "rightmove.co.uk" = true)
    (h2 : extract_property_id url ≠ "")
    (h3 : afterSub markerChars html.toList = none) :
    scrape_with_httpx_fallback url (Except.ok html) =
      Except.ok (mkListing url (extract_property_id url) [] {}) := by
  have hpm : parse_page_model html.toList = none := parse_page_model_no_marker _ h3
  simp only [scrape_with_httpx_fallback, h1, Bool.not_true, Bool.false_eq_true, if_false,
    hpm, Option.getD_none, truthy]
  rw [if_neg h2]
  rfl

theorem httpx_marker_absent_empty_images_witness :
    scrape_with_httpx_fallback urlRM1 (Except.ok "static page") =
      Except.ok (mkListing urlRM1 (extract_property_id urlRM1) [] {}) :=
  httpx_marker_absent_empty_images urlRM1 "static page" rfl (by decide) rfl

theorem subGo_eq_self (matcher : List Char → Option (List Char)) :
    ∀ (fuel : Nat) (cs : List Char), cs.length < fuel →
      hasMatch matcher cs = false → subGo matcher fuel cs = cs := by
  intro fuel
  induction fuel with
  | zero => intro cs h _; exact absurd h (Nat.not_lt_zero _)
  | succ f ih =>
    intro cs hlen hmatch
    cases cs with
    | nil => rfl
    | cons c rest =>
      have hm : matcher (c :: rest) = none := by
        cases hmm : matcher (c :: rest) with
        | none => rfl
        | some r => simp [hasMatch, hmm] at hmatch
      have hr : hasMatch matcher rest = false := by
        simpa [hasMatch, hm] using hmatch
      have hlen2 : rest.length < f := by
        simpa [List.length_cons] using Nat.lt_of_succ_lt_succ hlen
      simp [subGo, hm, ih rest hlen2 hr]

/-- C5 counterexample: two adjacent crop segments — the substitution
scan does not revisit the seam, so one application leaves a crop
segment that a second application removes; the canonicalizer is not
idempotent on this URL. -/
theorem upgrade_not_idempotent_cex :
    upgrade_image_resolution "https://media.rightmove.co.uk/crop/1x1/crop/2x2/img.jpg" =
      "https://media.rightmove.co.uk/crop/2x2/img.jpg" ∧
    upgrade_image_resolution (upgrade_image_resolution
        "https://media.rightmove.co.uk/crop/1x1/crop/2x2/img.jpg") =
      "https://media.rightmove.co.uk/img.jpg" ∧
    ("https://media.rightmove.co.uk/img.jpg" : String) ≠
      "https://media.rightmove.co.uk/crop/2x2/img.jpg" :=
  ⟨rfl, rfl, by decide⟩

/-- C5 amended: `upgrade_image_resolution` is idempotent at every URL
whose once-canonicalized form contains no residual crop or max-resize
segment (removing a segment can splice together a new one, as the
counterexample shows; when it does not, a second application is the
identity). -/
theorem upgrade_idempotent_when_clean (x : String)
    (hc : hasMatch cropMatch (upgrade_image_resolution x).toList = false)
    (hm : hasMatch maxMatch (upgrade_image_resolution x).toList = false) :
    upgrade_image_resolution (upgrade_image_resolution x) = upgrade_image_resolution x := by
  conv_lhs => rw [upgrade_image_resolution]
  rw [subGo_eq_self cropMatch _ _ (Nat.lt_succ_self _) hc]
  rw [subGo_eq_self maxMatch _ _ (Nat.lt_succ_self _) hm]
  rfl

theorem upgrade_idempotent_when_clean_witness :
    upgrade_image_resolution (upgrade_image_resolution
        "https://media.example.com/a/_max_135x100/1.jpg") =
      upgrade_image_resolution "https://media.example.com/a/_max_135x100/1.jpg" :=
  upgrade_idempotent_when_clean "https://media.example.com/a/_max_135x100/1.jpg" rfl rfl

theorem extract_images_go_id_gt :
    ∀ (imgs : List Json) (total idx k : Nat),
      k ∈ (extract_images_go total idx imgs).map (fun i => i.id) → idx < k := by
  intro imgs
  induction imgs with
  | nil => intro total idx k h; simp [extract_images_go] at h
  | cons img rest ih =>
    intro total idx k h
    cases hf : imageEntryFields img with
    | none =>
      simp only [extract_images_go, hf] at h
      have := ih total (idx + 1) k h
      omega
    | some f =>
      obtain ⟨urlJ, captionJ, wJ, hJ⟩ := f
      simp only [extract_images_go, hf] at h
      by_cases ht : truthy urlJ
      · rw [if_pos ht] at h
        simp only [List.map_cons, List.mem_cons] at h
        rcases h with h | h
        · omega
        · have := ih total (idx + 1) k h
          omega
      · rw [if_neg ht] at h
        have := ih total (idx + 1) k h
        omega

theorem extract_images_go_chain :
    ∀ (imgs : List Json) (total idx : Nat),
      List.Chain' (· < ·) ((extract_images_go total idx imgs).map (fun i => i.id)) := by
  intro imgs
  induction imgs with
  | nil => intro total idx; simp [extract_images_go]
  | cons img rest ih =>
    intro total idx
    cases hf : imageEntryFields img with
    | none =>
      simp only [extract_images_go, hf]
      exact ih total (idx + 1)
    | some f =>
      obtain ⟨urlJ, captionJ, wJ, hJ⟩ := f
      simp only [extract_images_go, hf]
      by_cases ht : truthy urlJ
      · rw [if_pos ht]
        simp only [List.map_cons]
        rw [List.chain'_cons']
        refine ⟨fun y hy => ?_, ih total (idx + 1)⟩
        exact extract_images_go_id_gt rest total (idx + 1) y (List.mem_of_mem_head? hy)
      · rw [if_neg ht]
        exact ih total (idx + 1)

theorem extract_images_go_all_kept :
    ∀ (imgs : List Json) (total idx : Nat),
      (∀ i ∈ imgs, keptEntry i = true) →
      (extract_images_go total idx imgs).map (fun i => i.id) =
        List.range' (idx + 1) imgs.length := by
  intro imgs
  induction imgs with
  | nil => intro total idx _; simp [extract_images_go]
  | cons img rest ih =>
    intro total idx hk
    have hkimg := hk img (List.mem_cons_self img rest)
    cases hf : imageEntryFields img with
    | none => simp [keptEntry, hf] at hkimg
    | some f =>
      obtain ⟨urlJ, captionJ, wJ, hJ⟩ := f
      have ht : truthy urlJ = true := by simpa [keptEntry, hf] using hkimg
      simp only [extract_images_go, hf]
      rw [if_pos ht]
      simp only [List.map_cons, List.length_cons]
      rw [ih total (idx + 1) (fun i hi => hk i (List.mem_cons_of_mem _ hi))]
      rfl

theorem domGo_ids :
    ∀ (elems : List (Option String × String)) (total idx : Nat) (seen : List String) (n : Nat),
      (domGo total idx seen n elems).map (fun i => i.id) =
        List.range' (n + 1) ((domGo total idx seen n elems).length) := by
  intro elems
  induction elems with
  | nil => intro total idx seen n; simp [domGo]
  | cons e rest ih =>
    intro total idx seen n
    obtain ⟨src?, alt⟩ := e
    cases src? with
    | none =>
      simp only [domGo]
      exact ih total (idx + 1) seen n
    | some src =>
      simp only [domGo]
      split_ifs with h1 h2 h3 h4
      · exact ih total (idx + 1) seen n
      · exact ih total (idx + 1) seen n
      · exact ih total (idx + 1) _ n
      · exact ih total (idx + 1) _ n
      · simp only [List.map_cons, List.length_cons]
        rw [ih total (idx + 1) _ (n + 1)]
        rfl

/-- C3 amended: in the JSON path each image's `id` is one more than the
position of its source entry in the `images` array, so ids are strictly
increasing and form the contiguous sequence 1..n exactly when no entry
is skipped (a skipped entry leaves a gap); the Playwright DOM fallback
always numbers its images contiguously from 1. -/
theorem image_ids_structure :
    (∀ data : Json,
       List.Chain' (· < ·) ((extract_images_from_page_model data).map (fun i => i.id))) ∧
    (∀ data : Json, (∀ i ∈ imageListOf data, keptEntry i = true) →
       (extract_images_from_page_model data).map (fun i => i.id) =
         List.range' 1 (imageListOf data).length) ∧
    (∀ elems : List (Option String × String),
       (domExtract elems).map (fun i => i.id) = List.range' 1 (domExtract elems).length) := by
  refine ⟨fun data => ?_, fun data h => ?_, fun elems => ?_⟩
  · exact extract_images_go_chain (imageListOf data) (imageListOf data).length 0
  · simpa using extract_images_go_all_kept (imageListOf data) (imageListOf data).length 0 h
  · exact domGo_ids elems elems.length 0 [] 0

theorem image_ids_structure_witness :
    (extract_images_from_page_model (Json.obj [("images", Json.arr
        [Json.str "https://media.example.com/a/_IMG_1.jpg",
         Json.str "https://media.example.com/a/_IMG_2.jpg"])])).map (fun i => i.id) =
      List.range' 1 2 :=
  image_ids_structure.2.1
    (Json.obj [("images", Json.arr
        [Json.str "https://media.example.com/a/_IMG_1.jpg",
         Json.str "https://media.example.com/a/_IMG_2.jpg"])])
    (by decide)

/-- C3 counterexample: a parsed `PAGE_MODEL` whose `images` array has a
skipped entry (`null`) before a kept one produces the id list `[2]` —
not the contiguous 1-based sequence `[1]` the claim requires for a
one-image listing. -/
theorem image_ids_not_contiguous_cex :
    parse_page_model htmlC3.toList = some pmC3 ∧
    (extract_images_from_page_model pmC3).map (fun i => i.id) = [2] ∧
    (extract_images_from_page_model pmC3).length = 1 ∧
    ([2] : List Nat) ≠ List.range' 1 1 :=
  ⟨rfl, rfl, rfl, by decide⟩

/-- C9 counterexample: the wildcard shape of the claim,
`/property-for-sale-12345`, has no digits immediately after the
separator, so the extractor finds nothing and returns the empty string,
while `/properties/12345` yields "12345" — the two shapes do not agree. -/
theorem property_id_shape_cex :
    extract_property_id "https://www.rightmove.co.uk/property-for-sale-12345" = "" ∧
    extract_property_id "https://www.rightmove.co.uk/properties/12345" = "12345" ∧
    ("" : String) ≠ "12345" :=
  ⟨rfl, rfl, by decide⟩

/-- C9 amended: for the two shapes the regex actually accepts —
`/properties/<digits>` and `/property-<digits>`, digits immediately
after the separator — the extractor returns the same numeric
identifier, namely the digit run itself, whichever shape is used. -/
theorem property_id_both_shapes (d : List Char) (hne : d ≠ [])
    (hdig : ∀ c ∈ d, c.isDigit = true) :
    extract_property_id_chars ("https://www.rightmove.co.uk/properties/".toList ++ d) = d ∧
    extract_property_id_chars ("https://www.rightmove.co.uk/property-".toList ++ d) = d := by
  obtain ⟨c, d2, rfl⟩ := List.exists_cons_of_ne_nil hne
  have ht : (c :: d2).takeWhile Char.isDigit = c :: d2 :=
    List.takeWhile_eq_self_iff.mpr hdig
  constructor
  · have key : searchPropId ("https://www.rightmove.co.uk/properties/".toList ++ (c :: d2)) =
        some (c :: d2) := by
      change Option.orElse
          (if ((c :: d2).takeWhile Char.isDigit).isEmpty then none
           else some ((c :: d2).takeWhile Char.isDigit))
          (fun _ => searchPropId ("properties/".toList ++ (c :: d2))) = some (c :: d2)
      rw [ht]
      rfl
    simp only [extract_property_id_chars, key]
  · have key : searchPropId ("https://www.rightmove.co.uk/property-".toList ++ (c :: d2)) =
        some (c :: d2) := by
      change Option.orElse
          (Option.orElse
            (if ((c :: d2).takeWhile Char.isDigit).isEmpty then none
             else some ((c :: d2).takeWhile Char.isDigit))
            (fun _ => if isPre "ies".toList ("y-".toList ++ (c :: d2)) then
                sepDigits (("y-".toList ++ (c :: d2)).drop 3) else none))
          (fun _ => searchPropId ("property-".toList ++ (c :: d2))) = some (c :: d2)
      rw [ht]
      rfl
    simp only [extract_property_id_chars, key]

theorem property_id_both_shapes_witness :
    extract_property_id_chars ("https://www.rightmove.co.uk/properties/".toList ++ "87288435".toList) =
      "87288435".toList ∧
    extract_property_id_chars ("https://www.rightmove.co.uk/property-".toList ++ "87288435".toList) =
      "87288435".toList :=
  property_id_both_shapes "87288435".toList (by decide) (by decide)
